import Mathlib

/-!
Verification of the UTAP intermediate-representation library (libutap).

The development shallowly embeds the data model of `include/utap/document.h`
and the diagnostic factories of `src/typeexception.cpp`.  Code that lives in
translation units absent from the sources (document.cpp, symbols.cpp) is
modelled from the specification; each such definition says so in its doc
comment.  C++ `std::string` values are embedded as Lean `String` (and, where
byte-level operations such as `substr` matter, as `List Char`); raw pointers
become `Option`; the growing containers (`std::vector`, `std::deque`,
`std::list`) become Lean lists.
-/

namespace UTAP

/-! ### Diagnostic factories, from src/typeexception.cpp

Each C++ factory builds a `TypeException` from a message string; the
embedding returns that message string directly. -/

def UnknownIdentifierError (name : String) : String :=
  "$Unknown_identifier: %1%" ++ name

def HasNoMemberError (name : String) : String :=
  "$has_no_member_named %1%" ++ name

def IsNotAStructError (name : String) : String :=
  "%1% $is_not_a_structure" ++ name

def DuplicateDefinitionError (name : String) : String :=
  "$Duplicate_definition_of %1%" ++ name

def InvalidTypeError (name : String) : String :=
  "$Invalid_type %1%" ++ name

def NoSuchProcessError (name : String) : String :=
  "$No_such_process: %1%" ++ name

def NotATemplateError (name : String) : String :=
  "$Not_a_template: %1%" ++ name

def NotAProcessError (name : String) : String :=
  "%1% $is_not_a_process" ++ name

def StrategyNotDeclaredError (name : String) : String :=
  "$strategy_not_declared: %1%" ++ name

def UnknownDynamicTemplateError (name : String) : String :=
  "Unknown dynamic template %1%" ++ name

def ShadowsAVariableWarning (name : String) : String :=
  "%1% $shadows_a_variable" ++ name

def CouldNotLoadLibraryError (name : String) : String :=
  "$Could_not_load_library_named %1%" ++ name

def CouldNotLoadFunctionError (name : String) : String :=
  "$Could_not_load_function_named %1%" ++ name

/-! ### The document string table, from Document (document.h)

`strings` is a `std::vector<std::string>`; `add_string` pushes back
unconditionally; `add_string_if_new` scans with `std::find` and either
returns the distance to the first hit or pushes back and returns the new
last index. -/

/-- `void add_string(const std::string&)` : unconditional `push_back`. -/
def add_string (strings : List String) (s : String) : List String :=
  strings ++ [s]

/-- `std::find` followed by `std::distance`: the index of the first
occurrence of `s`, or `none` when `s` is absent (the `end` iterator). -/
def findIndex (s : String) : List String → Option Nat
  | [] => none
  | x :: xs => if x = s then some 0 else (findIndex s xs).map (· + 1)

/-- `size_t add_string_if_new(const std::string&)` together with the table it
leaves behind: when `std::find` reaches `end`, push back and return
`size() - 1`; otherwise return the distance to the hit, table unchanged. -/
def add_string_if_new (strings : List String) (s : String) : List String × Nat :=
  match findIndex s strings with
  | none => (strings ++ [s], strings.length)
  | some i => (strings, i)

/-! ### cut_t::toString, inline in document.h

The C++ builds `s = "CUT("`, appends `simregions[i].toString() + " "` for
each simregion, drops the last byte with `s.substr(0, s.size() - 1)`, and
appends `")"`.  The simregion renderings are taken as given (their bodies
live in document.cpp); byte strings are embedded as `List Char`. -/

def cut_toString (regions : List (List Char)) : List Char :=
  let s := regions.foldl (fun acc r => acc ++ r ++ [' ']) "CUT(".toList
  s.take (s.length - 1) ++ ")".toList

/-! ### Symbols and expressions

`symbol_t` (utap/symbols.h, not among the sources) has nominal identity and
carries a type; the embedding keeps a numeric identity, the declared name,
and the kind of the carried type (only location vs. branchpoint matters
here).  `expression_t` (utap/expression.h, not among the sources) is opaque
for the present claims. -/

inductive symkind where
  | location
  | branchpoint
  | other
deriving DecidableEq, Repr

structure symbol_t where
  id : Nat
  name : String
  kind : symkind
deriving DecidableEq, Repr

structure expression_t where
  eid : Nat
deriving DecidableEq, Repr

instance : Inhabited expression_t := ⟨⟨0⟩⟩

/-! ### SupportedMethods, from document.h lines 39-45 -/

structure SupportedMethods where
  symbolic : Bool := true
  stochastic : Bool := true
  concrete : Bool := true
deriving DecidableEq, Repr

/-! ### LSC entities: message_t, condition_t, update_t, simregion_t
(document.h lines 191-260; the field initialisers are the C++ member
initialisers).  Instance-line pointers become the instance line's symbol. -/

structure message_t where
  nr : Int := -1
  location : Int := -1
  src : Option symbol_t := none
  dst : Option symbol_t := none
  label : expression_t := default
  isInPrechart : Bool := false
deriving DecidableEq, Repr

structure condition_t where
  nr : Int := -1
  location : Int := -1
  anchors : List symbol_t := []
  label : expression_t := default
  isInPrechart : Bool := false
  isHot : Bool := false
deriving DecidableEq, Repr

structure update_t where
  nr : Int := -1
  location : Int := -1
  anchor : Option symbol_t := none
  label : expression_t := default
  isInPrechart : Bool := false
deriving DecidableEq, Repr

/-- `simregion_t`: the three raw owning pointers become `Option`s, `none`
standing for `nullptr`. -/
structure simregion_t where
  nr : Int
  message : Option message_t
  condition : Option condition_t
  update : Option update_t
deriving DecidableEq, Repr

/-- The default constructor `simregion_t()` (document.h lines 241-246):
`nr{}` is zero and all three inner objects are freshly allocated
default-constructed ones. -/
def simregion_default : simregion_t :=
  { nr := 0
    message := some {}
    condition := some {}
    update := some {} }

/-! ### Locations, branchpoints, edges (document.h lines 64-108)

Pointers into the template's location/branchpoint storage become the
pointee's symbol, `none` standing for `nullptr`. -/

structure state_t where
  uid : symbol_t
  invariant : expression_t := default
  exponentialRate : expression_t := default
  costRate : expression_t := default
  locNr : Int := 0
deriving DecidableEq, Repr

structure branchpoint_t where
  uid : symbol_t
  bpNr : Int := 0
deriving DecidableEq, Repr

structure edge_t where
  nr : Int
  control : Bool
  actname : String
  src : Option symbol_t
  srcb : Option symbol_t
  dst : Option symbol_t
  dstb : Option symbol_t
  guard : expression_t := default
  assign : expression_t := default
  sync : expression_t := default
  prob : expression_t := default
  selectValues : List Int := []
deriving DecidableEq, Repr

/-! ### Instances (document.h lines 331-344)

`parameters` is the instance's frame; `mapping` (a `std::map` from bound
parameter symbols to argument expressions) becomes an association list. -/

structure instance_t where
  uid : symbol_t
  parameters : List symbol_t
  mapping : List (symbol_t × expression_t)
  arguments : Nat
  unbound : Nat
deriving DecidableEq, Repr

/-- The key set of `mapping`, in insertion order. -/
def instance_t.keys (I : instance_t) : List symbol_t :=
  I.mapping.map Prod.fst

/-- The invariant claimed for instances: the parameter frame holds the
unbound symbols first, followed by exactly the bound (mapped) ones. -/
def InstanceInv (I : instance_t) : Prop :=
  I.parameters.length = I.unbound + I.mapping.length ∧
  (∀ p ∈ I.parameters.take I.unbound, p ∉ I.keys) ∧
  (∀ p ∈ I.parameters.drop I.unbound, p ∈ I.keys) ∧
  (∀ p ∈ I.keys, p ∈ I.parameters.drop I.unbound)

instance (I : instance_t) : Decidable (InstanceInv I) := by
  unfold InstanceInv; infer_instance

/-- Modelled from the spec: the instantiation engine (`Document::addInstance`
and its LSC sibling live in document.cpp, which is not among the sources).
Spec 4.5: allocate an instance with a fresh uid, copy the old parameter
frame behind the new unbound parameters, let the arguments bind the leading
(unbound) parameters of the instantiated instance, and record each binding
in `mapping`; parameters and arguments of partial instances are flattened
into the one struct. -/
def instantiate (inst : instance_t) (uid : symbol_t) (params : List symbol_t)
    (args : List expression_t) : instance_t :=
  { uid := uid
    parameters := params ++ inst.parameters
    mapping := inst.mapping ++ (inst.parameters.take args.length).zip args
    arguments := args.length
    unbound := params.length }

/-! ### Templates (document.h lines 355-418)

`template_t` derives from `instance_t` and `declarations_t`; the embedding
flattens the fields the claims touch.  The `std::deque` containers become
lists. -/

structure template_t where
  uid : symbol_t
  parameters : List symbol_t := []
  init : Option symbol_t := none
  states : List state_t := []
  branchpoints : List branchpoint_t := []
  edges : List edge_t := []
  instanceLines : List instance_t := []
  messages : List message_t := []
  conditions : List condition_t := []
  updates : List update_t := []
deriving DecidableEq, Repr

/-- Modelled from the spec: `template_t::addEdge` lives in document.cpp,
which is not among the sources.  Per document.h lines 86-91 and the spec,
an edge's source and destination are each exactly one of a location and a
branchpoint, and the unused pointer of each pair is set to `nullptr`: the
given symbol goes into the location slot when it names a location and into
the branchpoint slot otherwise, and the new edge is appended to `edges`. -/
def template_t.addEdge (t : template_t) (src dst : symbol_t) (control : Bool)
    (actname : String) : template_t :=
  let nr : Int := match t.edges.getLast? with
    | none => 0
    | some e => e.nr + 1
  let e : edge_t :=
    { nr := nr
      control := control
      actname := actname
      src := if src.kind = symkind.location then some src else none
      srcb := if src.kind = symkind.location then none else some src
      dst := if dst.kind = symkind.location then some dst else none
      dstb := if dst.kind = symkind.location then none else some dst }
  { t with edges := t.edges ++ [e] }

/-- Exactly one of `(src, srcb)` and exactly one of `(dst, dstb)` is set;
the unused pointer of each pair is null. -/
def edgeEndsOk (e : edge_t) : Prop :=
  ((e.src.isSome = true ∧ e.srcb = none) ∨ (e.src = none ∧ e.srcb.isSome = true)) ∧
  ((e.dst.isSome = true ∧ e.dstb = none) ∨ (e.dst = none ∧ e.dstb.isSome = true))

instance (e : edge_t) : Decidable (edgeEndsOk e) := by
  unfold edgeEndsOk; infer_instance

/-! ### Frames (utap/symbols.h, not among the sources)

Modelled from the spec: a frame is an ordered, append-only list of symbols
with an optional parent for lexical nesting; resolution searches the local
list first and then the chain of parents. -/

inductive frame_t where
  | root (syms : List symbol_t)
  | nested (syms : List symbol_t) (parent : frame_t)
deriving DecidableEq, Repr

def frame_t.localSymbols : frame_t → List symbol_t
  | .root syms => syms
  | .nested syms _ => syms

def frame_t.parent : frame_t → Option frame_t
  | .root _ => none
  | .nested _ p => some p

/-- `resolve(name)`: first local match, then the parent chain. -/
def frame_t.resolve : frame_t → String → Option symbol_t
  | .root syms, nm => syms.find? (fun x => x.name = nm)
  | .nested syms p, nm =>
    match syms.find? (fun x => x.name = nm) with
    | some x => some x
    | none => p.resolve nm

/-- The frame with `s` appended to the local symbol list. -/
def frame_t.appendLocal : frame_t → symbol_t → frame_t
  | .root syms, s => .root (syms ++ [s])
  | .nested syms p, s => .nested (syms ++ [s]) p

/-- Modelled from the spec: `frame_t::add` lives in symbols.cpp, which is
not among the sources.  Adding a symbol fails with the
`DuplicateDefinitionError` diagnostic when the name already exists locally;
otherwise the symbol is appended, together with a `ShadowsAVariableWarning`
diagnostic exactly when the name resolves in the enclosing chain. -/
def frame_t.addSymbol (f : frame_t) (s : symbol_t) :
    Except String (frame_t × Option String) :=
  if f.localSymbols.any (fun x => x.name = s.name) then
    .error (DuplicateDefinitionError s.name)
  else
    let warn : Option String :=
      match f.parent with
      | none => none
      | some p => (p.resolve s.name).map (fun _ => ShadowsAVariableWarning s.name)
    .ok (f.appendLocal s, warn)

/-! ### Queries and the document (document.h lines 472-692) -/

structure query_t where
  formula : String := ""
  comment : String := ""
  location : String := ""
deriving DecidableEq, Repr

structure Document where
  templates : List template_t := []
  instances : List instance_t := []
  lscInstances : List instance_t := []
  processes : List instance_t := []
  queries : List query_t := []
  strings : List String := []
  supportedMethods : SupportedMethods := {}
deriving DecidableEq, Repr

/-- `Document()`: every container empty and every member initialiser at its
default (in particular `SupportedMethods supportedMethods{}`). -/
def Document.fresh : Document := {}

/-- `setSupportedMethods`, the one mutator of the flags. -/
def Document.setSupportedMethods (d : Document) (sm : SupportedMethods) : Document :=
  { d with supportedMethods := sm }

/-! ### The Builder/Document mutation interface

Modelled from the spec: the bodies live in document.cpp, which is not among
the sources.  Spec 4.4: each call records the element in the appropriate
document container, append-only, no deletions except `removeProcess`. -/

/-- Apply `f` to the element at position `i`, if any. -/
def modifyAt {α : Type} (f : α → α) : Nat → List α → List α
  | _, [] => []
  | 0, x :: xs => f x :: xs
  | n + 1, x :: xs => x :: modifyAt f n xs

inductive DocOp where
  | addTemplate (t : template_t)
  | addInstance (i : instance_t)
  | addLscInstance (i : instance_t)
  | addProcess (i : instance_t)
  | addQuery (q : query_t)
  | addStringOp (s : String)
  | addStringIfNewOp (s : String)
  | addLocation (ti : Nat) (st : state_t)
  | addBranchpoint (ti : Nat) (b : branchpoint_t)
  | addEdgeOp (ti : Nat) (src dst : symbol_t) (control : Bool) (actname : String)
  | addInstanceLine (ti : Nat) (il : instance_t)
  | addMessage (ti : Nat) (m : message_t)
  | addCondition (ti : Nat) (c : condition_t)
  | addUpdate (ti : Nat) (u : update_t)
  | removeProcess (k : Nat)
deriving DecidableEq, Repr

/-- Whether the operation is the one deleting entry point, `removeProcess`. -/
def DocOp.isRemove : DocOp → Bool
  | .removeProcess _ => true
  | _ => false

def Document.applyOp (d : Document) : DocOp → Document
  | .addTemplate t => { d with templates := d.templates ++ [t] }
  | .addInstance i => { d with instances := d.instances ++ [i] }
  | .addLscInstance i => { d with lscInstances := d.lscInstances ++ [i] }
  | .addProcess i => { d with processes := d.processes ++ [i] }
  | .addQuery q => { d with queries := d.queries ++ [q] }
  | .addStringOp s => { d with strings := add_string d.strings s }
  | .addStringIfNewOp s => { d with strings := (add_string_if_new d.strings s).1 }
  | .addLocation ti st =>
    { d with templates :=
        modifyAt (fun t => { t with states := t.states ++ [st] }) ti d.templates }
  | .addBranchpoint ti b =>
    { d with templates :=
        modifyAt (fun t => { t with branchpoints := t.branchpoints ++ [b] }) ti d.templates }
  | .addEdgeOp ti src dst c an =>
    { d with templates :=
        modifyAt (fun t => t.addEdge src dst c an) ti d.templates }
  | .addInstanceLine ti il =>
    { d with templates :=
        modifyAt (fun t => { t with instanceLines := t.instanceLines ++ [il] }) ti d.templates }
  | .addMessage ti m =>
    { d with templates :=
        modifyAt (fun t => { t with messages := t.messages ++ [m] }) ti d.templates }
  | .addCondition ti c =>
    { d with templates :=
        modifyAt (fun t => { t with conditions := t.conditions ++ [c] }) ti d.templates }
  | .addUpdate ti u =>
    { d with templates :=
        modifyAt (fun t => { t with updates := t.updates ++ [u] }) ti d.templates }
  | .removeProcess k => { d with processes := d.processes.eraseIdx k }

/-- `l` grows into `l'`: `l'` is `l` with zero or more elements appended, so
every previously stored element sits unchanged at its old index. -/
def ListGrows {α : Type} (l l' : List α) : Prop :=
  ∃ rest, l ++ rest = l'

/-- Every container of a template grows (old contents kept in place). -/
def TemplGrows (t t' : template_t) : Prop :=
  ListGrows t.states t'.states ∧
  ListGrows t.branchpoints t'.branchpoints ∧
  ListGrows t.edges t'.edges ∧
  ListGrows t.instanceLines t'.instanceLines ∧
  ListGrows t.messages t'.messages ∧
  ListGrows t.conditions t'.conditions ∧
  ListGrows t.updates t'.updates

/-- Every container of a document grows, and each already present template
only grows in place. -/
def DocGrows (d d' : Document) : Prop :=
  (∀ (i : Nat) (t : template_t), d.templates[i]? = some t →
    ∃ t', d'.templates[i]? = some t' ∧ TemplGrows t t') ∧
  ListGrows d.instances d'.instances ∧
  ListGrows d.lscInstances d'.lscInstances ∧
  ListGrows d.processes d'.processes ∧
  ListGrows d.queries d'.queries ∧
  ListGrows d.strings d'.strings

/-! ## Helper lemmas -/

theorem findIndex_eq_none_iff (s : String) (l : List String) :
    findIndex s l = none ↔ s ∉ l := by
  induction l with
  | nil => simp [findIndex]
  | cons x xs ih =>
    by_cases h : x = s
    · simp [findIndex, h]
    · have hsx : ¬ s = x := fun he => h he.symm
      simp [findIndex, h, Option.map_eq_none', ih, hsx]

theorem findIndex_some_spec (s : String) (l : List String) (i : Nat)
    (h : findIndex s l = some i) :
    l[i]? = some s ∧ ∀ j, j < i → l[j]? ≠ some s := by
  induction l generalizing i with
  | nil => simp [findIndex] at h
  | cons x xs ih =>
    by_cases hx : x = s
    · rw [findIndex, if_pos hx] at h
      injection h with h'
      subst h'
      exact ⟨by simp [hx], fun j hj => absurd hj (Nat.not_lt_zero j)⟩
    · rw [findIndex, if_neg hx] at h
      cases hfi : findIndex s xs with
      | none => rw [hfi] at h; simp at h
      | some k =>
        rw [hfi] at h
        simp only [Option.map_some'] at h
        injection h with h'
        subst h'
        obtain ⟨h1, h2⟩ := ih k hfi
        refine ⟨by simpa using h1, ?_⟩
        intro j hj hc
        cases j with
        | zero => exact hx (by simpa using hc)
        | succ j' => exact h2 j' (by omega) (by simpa using hc)

theorem nodup_append_singleton {α : Type} (l : List α) (a : α)
    (h : l.Nodup) (ha : a ∉ l) : (l ++ [a]).Nodup := by
  rw [List.nodup_append]
  exact ⟨h, List.nodup_singleton a, fun x hx hxa => ha ((List.mem_singleton.mp hxa) ▸ hx)⟩

theorem foldl_append_space (rs : List (List Char)) (init : List Char) :
    rs.foldl (fun acc r => acc ++ r ++ [' ']) init
      = init ++ (rs.map (fun r => r ++ [' '])).flatten := by
  induction rs generalizing init with
  | nil => simp
  | cons r rs ih =>
    rw [List.foldl_cons, ih]
    simp [List.append_assoc]

theorem intercalate_space_cons_cons (r r' : List Char) (rs : List (List Char)) :
    List.intercalate [' '] (r :: r' :: rs)
      = r ++ [' '] ++ List.intercalate [' '] (r' :: rs) := by
  simp [List.intercalate, List.intersperse_cons_cons, List.append_assoc]

theorem join_map_space (r : List Char) (rs : List (List Char)) :
    ((r :: rs).map (fun x => x ++ [' '])).flatten
      = List.intercalate [' '] (r :: rs) ++ [' '] := by
  induction rs generalizing r with
  | nil => simp [List.intercalate]
  | cons r' rs ih =>
    rw [intercalate_space_cons_cons]
    simp only [List.map_cons, List.flatten_cons] at ih ⊢
    rw [ih r', List.append_assoc, List.append_assoc, List.append_assoc]

theorem take_len_sub_one_concat {α : Type} (l : List α) (a : α) :
    (l ++ [a]).take ((l ++ [a]).length - 1) = l := by
  have hl : (l ++ [a]).length - 1 = l.length := by simp
  rw [hl]
  exact List.take_left l [a]

/-! ## Claims -/

/-- C1, counterexample: `add_string` is a string-table operation and it
appends unconditionally, so a sequence of string-table operations can put
two equal entries into the table. -/
theorem add_string_duplicate_cex :
    add_string (add_string ([] : List String) "a") "a" = ["a", "a"] ∧
    ¬ (add_string (add_string ([] : List String) "a") "a").Nodup := by
  exact ⟨rfl, by decide⟩

/-- C1 (amended): `add_string_if_new(s)` returns the index of `s` in the
table — the index of the first occurrence, table unchanged, when `s` is
already present, and the index of a newly appended last entry otherwise —
and no sequence of `add_string_if_new` operations starting from a
duplicate-free table ever produces two equal entries (while `add_string`
can). -/
theorem add_string_if_new_spec (strings : List String) (s : String)
    (hnd : strings.Nodup) :
    (s ∈ strings →
      (add_string_if_new strings s).1 = strings ∧
      strings[(add_string_if_new strings s).2]? = some s ∧
      (∀ j, j < (add_string_if_new strings s).2 → strings[j]? ≠ some s)) ∧
    (s ∉ strings →
      add_string_if_new strings s = (strings ++ [s], strings.length)) ∧
    (add_string_if_new strings s).1[(add_string_if_new strings s).2]? = some s ∧
    (add_string_if_new strings s).1.Nodup := by
  cases hfi : findIndex s strings with
  | none =>
    have hmem : s ∉ strings := (findIndex_eq_none_iff s strings).mp hfi
    have hres : add_string_if_new strings s = (strings ++ [s], strings.length) := by
      unfold add_string_if_new; rw [hfi]
    refine ⟨fun hs => absurd hs hmem, fun _ => hres, ?_, ?_⟩
    · rw [hres]; exact List.getElem?_concat_length strings s
    · rw [hres]; exact nodup_append_singleton strings s hnd hmem
  | some i =>
    have hres : add_string_if_new strings s = (strings, i) := by
      unfold add_string_if_new; rw [hfi]
    obtain ⟨h1, h2⟩ := findIndex_some_spec s strings i hfi
    have hmem : s ∈ strings := List.getElem?_mem h1
    refine ⟨fun _ => ⟨by rw [hres], by rw [hres]; exact h1, ?_⟩,
      fun hs => absurd hmem hs, by rw [hres]; exact h1, by rw [hres]; exact hnd⟩
    intro j hj
    rw [hres] at hj
    exact h2 j hj

/-- C1 witness: the theorem applied to the one-entry table `["a"]` and the
already present string `"a"`. -/
theorem add_string_if_new_spec_witness :
    add_string_if_new ["a"] "a" = (["a"], 0) ∧
    (add_string_if_new ["a"] "a").1[(add_string_if_new ["a"] "a").2]? = some "a" ∧
    (add_string_if_new ["a"] "a").1.Nodup := by
  have h := add_string_if_new_spec ["a"] "a" (by decide)
  exact ⟨by decide, h.2.2.1, h.2.2.2⟩

/-- C2, counterexample: `IsNotAStructError` yields a message starting with
`'%'`, not `'$'`, and the message of `UnknownDynamicTemplateError` contains
no `'$'` at all. -/
theorem factory_dollar_cex :
    (IsNotAStructError "x").toList.head? = some '%' ∧
    ¬ '$' ∈ (UnknownDynamicTemplateError "x").toList := by
  exact ⟨rfl, by decide⟩

/-- C2 (amended): of the thirteen diagnostic factories, nine return messages
that begin with `'$'` followed by a key; `IsNotAStructError`,
`NotAProcessError` and `ShadowsAVariableWarning` begin with the positional
parameter `%1%` followed by a `'$'`-prefixed key; and
`UnknownDynamicTemplateError` contains no `'$'`-prefixed key at all (any
`'$'` in its message can only come from the name argument). -/
theorem factory_message_shapes (n : String) :
    (UnknownIdentifierError n).toList.head? = some '$' ∧
    (HasNoMemberError n).toList.head? = some '$' ∧
    (DuplicateDefinitionError n).toList.head? = some '$' ∧
    (InvalidTypeError n).toList.head? = some '$' ∧
    (NoSuchProcessError n).toList.head? = some '$' ∧
    (NotATemplateError n).toList.head? = some '$' ∧
    (StrategyNotDeclaredError n).toList.head? = some '$' ∧
    (CouldNotLoadLibraryError n).toList.head? = some '$' ∧
    (CouldNotLoadFunctionError n).toList.head? = some '$' ∧
    (IsNotAStructError n).toList.take 5 = "%1% $".toList ∧
    (NotAProcessError n).toList.take 5 = "%1% $".toList ∧
    (ShadowsAVariableWarning n).toList.take 5 = "%1% $".toList ∧
    ('$' ∈ (UnknownDynamicTemplateError n).toList ↔ '$' ∈ n.toList) := by
  refine ⟨rfl, rfl, rfl, rfl, rfl, rfl, rfl, rfl, rfl, rfl, rfl, rfl, ?_⟩
  show '$' ∈ ("Unknown dynamic template %1%".toList ++ n.toList) ↔ '$' ∈ n.toList
  rw [List.mem_append]
  exact or_iff_right (by decide)

/-- C5: the default constructor of `simregion_t` allocates all three inner
objects, so the message, condition and update slots are never null, and each
fresh inner object carries the absence marker `nr = -1`. -/
theorem simregion_default_allocates :
    simregion_default.message ≠ none ∧
    simregion_default.condition ≠ none ∧
    simregion_default.update ≠ none ∧
    simregion_default.message.map message_t.nr = some (-1) ∧
    simregion_default.condition.map condition_t.nr = some (-1) ∧
    simregion_default.update.map update_t.nr = some (-1) := by
  refine ⟨?_, ?_, ?_, rfl, rfl, rfl⟩ <;> simp [simregion_default]

/-- C6: a freshly constructed document advertises all three analysis
methods: the symbolic, stochastic and concrete flags all default to true. -/
theorem fresh_document_supported_methods :
    Document.fresh.supportedMethods.symbolic = true ∧
    Document.fresh.supportedMethods.stochastic = true ∧
    Document.fresh.supportedMethods.concrete = true :=
  ⟨rfl, rfl, rfl⟩

/-- C9: on an empty simregion list `cut_t::toString` returns `"CUT)"` (the
trailing-space trim eats the opening parenthesis), and on a non-empty list
it returns `"CUT("` followed by the space-separated simregion strings and
`")"`. -/
theorem cut_toString_spec (regions : List (List Char)) :
    (regions = [] → cut_toString regions = "CUT)".toList) ∧
    (regions ≠ [] → cut_toString regions
        = "CUT(".toList ++ List.intercalate [' '] regions ++ ")".toList) := by
  constructor
  · rintro rfl; rfl
  · intro h
    obtain ⟨r, rs, rfl⟩ := List.exists_cons_of_ne_nil h
    simp only [cut_toString]
    rw [foldl_append_space, join_map_space, ← List.append_assoc,
      take_len_sub_one_concat, List.append_assoc]

/-- C9 witness: the theorem applied to an empty and to a two-element
simregion list. -/
theorem cut_toString_spec_witness :
    cut_toString [] = "CUT)".toList ∧
    cut_toString ["m1".toList, "m2".toList]
      = "CUT(".toList ++ List.intercalate [' '] ["m1".toList, "m2".toList]
          ++ ")".toList :=
  ⟨(cut_toString_spec []).1 rfl,
    (cut_toString_spec ["m1".toList, "m2".toList]).2 (by decide)⟩

/-- C10, counterexample: in `IsNotAStructError "x"` the characters right
before the concatenated name are not the `%1%` placeholder (the placeholder
sits at the front of the template), refuting the claim that every
name-taking factory puts the name immediately after `%1%`. -/
theorem factory_placeholder_cex :
    ¬ ("%1%".toList <:+ (IsNotAStructError "x").toList.dropLast) := by
  decide

/-- C10 (amended): each name-taking factory returns the fixed template
string with the name concatenated directly onto its end (the `%1%`
placeholder is never substituted); for the ten factories whose template ends
in `%1%` the name thereby lands immediately after the placeholder, while
`IsNotAStructError`, `NotAProcessError` and `ShadowsAVariableWarning` keep
`%1%` at the front, so there the name follows the message key instead. -/
theorem factory_concatenates_name (n : String) :
    UnknownIdentifierError n = "$Unknown_identifier: " ++ "%1%" ++ n ∧
    HasNoMemberError n = "$has_no_member_named " ++ "%1%" ++ n ∧
    DuplicateDefinitionError n = "$Duplicate_definition_of " ++ "%1%" ++ n ∧
    InvalidTypeError n = "$Invalid_type " ++ "%1%" ++ n ∧
    NoSuchProcessError n = "$No_such_process: " ++ "%1%" ++ n ∧
    NotATemplateError n = "$Not_a_template: " ++ "%1%" ++ n ∧
    StrategyNotDeclaredError n = "$strategy_not_declared: " ++ "%1%" ++ n ∧
    UnknownDynamicTemplateError n = "Unknown dynamic template " ++ "%1%" ++ n ∧
    CouldNotLoadLibraryError n = "$Could_not_load_library_named " ++ "%1%" ++ n ∧
    CouldNotLoadFunctionError n = "$Could_not_load_function_named " ++ "%1%" ++ n ∧
    IsNotAStructError n = "%1%" ++ " $is_not_a_structure" ++ n ∧
    NotAProcessError n = "%1%" ++ " $is_not_a_process" ++ n ∧
    ShadowsAVariableWarning n = "%1%" ++ " $shadows_a_variable" ++ n := by
  refine ⟨?_, ?_, ?_, ?_, ?_, ?_, ?_, ?_, ?_, ?_, ?_, ?_, ?_⟩ <;> rfl

/-- C3: the instantiation operation preserves the instance invariant.  The
input may itself be a partial instance (`hinv`), so the statement covers
re-instantiation as well; the arguments bind all of the instantiated
instance's unbound parameters (`hargs`), and the freshly declared parameters
are new symbols (`hfresh`, nominal symbol identity). -/
theorem instantiate_preserves_invariant (inst : instance_t) (uid : symbol_t)
    (params : List symbol_t) (args : List expression_t)
    (hinv : InstanceInv inst)
    (hargs : args.length = inst.unbound)
    (hfresh : ∀ p ∈ params, p ∉ inst.parameters) :
    InstanceInv (instantiate inst uid params args) := by
  obtain ⟨hlen, htake, hdrop1, hdrop2⟩ := hinv
  have hub : inst.unbound ≤ inst.parameters.length := by omega
  have htklen : (inst.parameters.take args.length).length = args.length := by
    rw [List.length_take]; omega
  have hkeys : (instantiate inst uid params args).keys
      = inst.keys ++ inst.parameters.take args.length := by
    show (inst.mapping ++ (inst.parameters.take args.length).zip args).map Prod.fst
      = inst.mapping.map Prod.fst ++ inst.parameters.take args.length
    rw [List.map_append]
    congr 1
    exact List.map_fst_zip _ _ (le_of_eq htklen)
  have hmemkeys : ∀ p ∈ inst.keys, p ∈ inst.parameters := fun p hp =>
    List.mem_of_mem_drop (hdrop2 p hp)
  refine ⟨?_, ?_, ?_, ?_⟩
  · show (params ++ inst.parameters).length
      = params.length + (inst.mapping ++ (inst.parameters.take args.length).zip args).length
    rw [List.length_append, List.length_append, List.length_zip, htklen, Nat.min_self]
    omega
  · show ∀ p ∈ (params ++ inst.parameters).take params.length,
      p ∉ (instantiate inst uid params args).keys
    rw [List.take_left, hkeys]
    intro p hp hpk
    rcases List.mem_append.mp hpk with hk | hk
    · exact hfresh p hp (hmemkeys p hk)
    · exact hfresh p hp (List.mem_of_mem_take hk)
  · show ∀ p ∈ (params ++ inst.parameters).drop params.length,
      p ∈ (instantiate inst uid params args).keys
    rw [List.drop_left, hkeys, hargs]
    intro p hp
    rw [← List.take_append_drop inst.unbound inst.parameters] at hp
    rcases List.mem_append.mp hp with hk | hk
    · exact List.mem_append.mpr (Or.inr hk)
    · exact List.mem_append.mpr (Or.inl (hdrop1 p hk))
  · show ∀ p ∈ (instantiate inst uid params args).keys,
      p ∈ (params ++ inst.parameters).drop params.length
    rw [List.drop_left, hkeys]
    intro p hp
    rcases List.mem_append.mp hp with hk | hk
    · exact hmemkeys p hk
    · exact List.mem_of_mem_take hk

/-- C3 witness: re-instantiating the one-parameter template instance
`T(p)` as `I(q) = T(expr)` satisfies the invariant. -/
theorem instantiate_preserves_invariant_witness :
    InstanceInv (instantiate
      { uid := ⟨0, "T", symkind.other⟩
        parameters := [⟨1, "p", symkind.other⟩]
        mapping := []
        arguments := 0
        unbound := 1 }
      ⟨2, "I", symkind.other⟩ [⟨3, "q", symkind.other⟩] [⟨7⟩]) :=
  instantiate_preserves_invariant _ _ _ _ (by decide) (by decide) (by decide)

/-- C4: an edge built by `addEdge` has exactly one of `(src, srcb)` and
exactly one of `(dst, dstb)` set, the unused slot being null; if every edge
of the template satisfied this before, every edge does after. -/
theorem addEdge_exactly_one_endpoint (t : template_t) (src dst : symbol_t)
    (control : Bool) (actname : String)
    (h : ∀ e ∈ t.edges, edgeEndsOk e) :
    ∀ e ∈ (t.addEdge src dst control actname).edges, edgeEndsOk e := by
  intro e he
  simp only [template_t.addEdge] at he
  rcases List.mem_append.mp he with h1 | h1
  · exact h e h1
  · rw [List.mem_singleton] at h1
    subst h1
    unfold edgeEndsOk
    constructor
    · by_cases hs : src.kind = symkind.location
      · left; simp [hs]
      · right; simp [hs]
    · by_cases hd : dst.kind = symkind.location
      · left; simp [hd]
      · right; simp [hd]

/-- C4 witness: the edge that `addEdge` appends to an edge-less template for
a location source and a branchpoint destination has exactly one source and
one destination slot set. -/
theorem addEdge_exactly_one_endpoint_witness :
    edgeEndsOk
      { nr := 0, control := true, actname := "act"
        src := some ⟨1, "L0", symkind.location⟩, srcb := none
        dst := none, dstb := some ⟨2, "b0", symkind.branchpoint⟩ } :=
  addEdge_exactly_one_endpoint { uid := ⟨0, "T", symkind.other⟩ }
    ⟨1, "L0", symkind.location⟩ ⟨2, "b0", symkind.branchpoint⟩ true "act"
    (by decide) _ (by decide)

/-- C7: adding a symbol to a frame fails, with the `DuplicateDefinition`
diagnostic, exactly when a symbol of the same name already exists locally in
that frame; otherwise the symbol is appended, with a `ShadowsAVariable`
warning exactly when the name resolves in an enclosing frame. -/
theorem frame_add_duplicate_and_shadowing (f : frame_t) (s : symbol_t) :
    ((∃ x ∈ f.localSymbols, x.name = s.name) ↔
      f.addSymbol s = .error (DuplicateDefinitionError s.name)) ∧
    ((∀ x ∈ f.localSymbols, x.name ≠ s.name) →
      ∃ w, f.addSymbol s = .ok (f.appendLocal s, w) ∧
        ((∃ p, f.parent = some p ∧ (p.resolve s.name).isSome = true) →
          w = some (ShadowsAVariableWarning s.name)) ∧
        ((∀ p, f.parent = some p → p.resolve s.name = none) → w = none)) := by
  by_cases hdup : ∃ x ∈ f.localSymbols, x.name = s.name
  · have hany : f.localSymbols.any (fun x => x.name = s.name) = true := by
      rw [List.any_eq_true]
      obtain ⟨x, hx, hn⟩ := hdup
      exact ⟨x, hx, by simp [hn]⟩
    constructor
    · exact ⟨fun _ => by unfold frame_t.addSymbol; rw [if_pos hany], fun _ => hdup⟩
    · intro hno
      obtain ⟨x, hx, hn⟩ := hdup
      exact absurd hn (hno x hx)
  · have hany : ¬ f.localSymbols.any (fun x => x.name = s.name) = true := by
      rw [List.any_eq_true]
      rintro ⟨x, hx, hn⟩
      exact hdup ⟨x, hx, by simpa using hn⟩
    have hok : f.addSymbol s = .ok (f.appendLocal s,
        match f.parent with
        | none => none
        | some p => (p.resolve s.name).map (fun _ => ShadowsAVariableWarning s.name)) := by
      unfold frame_t.addSymbol
      rw [if_neg hany]
    constructor
    · constructor
      · intro h; exact absurd h hdup
      · intro herr
        rw [hok] at herr
        cases herr
    · intro _
      refine ⟨_, hok, ?_, ?_⟩
      · rintro ⟨p, hp, hres⟩
        rw [hp]
        rw [Option.isSome_iff_exists] at hres
        obtain ⟨x, hx⟩ := hres
        simp only [hx, Option.map_some']
      · intro hnone
        cases hp : f.parent with
        | none => rfl
        | some p =>
          show Option.map (fun _ => ShadowsAVariableWarning s.name) (p.resolve s.name) = none
          rw [hnone p hp]
          rfl

/-- C7 witness: the theorem applied to a nested frame whose parent declares
the name `"v"`; adding a fresh `"v"` locally succeeds and yields exactly the
shadowing warning. -/
theorem frame_add_duplicate_and_shadowing_witness :
    ((∃ x ∈ (frame_t.nested [] (frame_t.root [⟨0, "v", symkind.other⟩])).localSymbols,
        x.name = "v") ↔
      (frame_t.nested [] (frame_t.root [⟨0, "v", symkind.other⟩])).addSymbol
          ⟨1, "v", symkind.other⟩
        = .error (DuplicateDefinitionError "v")) ∧
    ((∀ x ∈ (frame_t.nested [] (frame_t.root [⟨0, "v", symkind.other⟩])).localSymbols,
        x.name ≠ "v") →
      ∃ w, (frame_t.nested [] (frame_t.root [⟨0, "v", symkind.other⟩])).addSymbol
          ⟨1, "v", symkind.other⟩
        = .ok ((frame_t.nested [] (frame_t.root [⟨0, "v", symkind.other⟩])).appendLocal
            ⟨1, "v", symkind.other⟩, w) ∧
        ((∃ p, (frame_t.nested [] (frame_t.root [⟨0, "v", symkind.other⟩])).parent = some p ∧
            (p.resolve "v").isSome = true) →
          w = some (ShadowsAVariableWarning "v")) ∧
        ((∀ p, (frame_t.nested [] (frame_t.root [⟨0, "v", symkind.other⟩])).parent = some p →
            p.resolve "v" = none) → w = none)) :=
  frame_add_duplicate_and_shadowing
    (frame_t.nested [] (frame_t.root [⟨0, "v", symkind.other⟩])) ⟨1, "v", symkind.other⟩

theorem listGrows_refl {α : Type} (l : List α) : ListGrows l l :=
  ⟨[], List.append_nil l⟩

theorem listGrows_concat {α : Type} (l : List α) (a : α) : ListGrows l (l ++ [a]) :=
  ⟨[a], rfl⟩

theorem templGrows_refl (t : template_t) : TemplGrows t t :=
  ⟨listGrows_refl _, listGrows_refl _, listGrows_refl _, listGrows_refl _,
    listGrows_refl _, listGrows_refl _, listGrows_refl _⟩

theorem add_string_if_new_grows (strings : List String) (s : String) :
    ListGrows strings (add_string_if_new strings s).1 := by
  unfold add_string_if_new
  cases findIndex s strings with
  | none => exact listGrows_concat strings s
  | some i => exact listGrows_refl strings

theorem getElem?_append_of_some {α : Type} (l1 l2 : List α) (i : Nat) (a : α)
    (h : l1[i]? = some a) : (l1 ++ l2)[i]? = some a := by
  have hi : i < l1.length := by
    by_contra hn
    rw [List.getElem?_eq_none_iff.mpr (le_of_not_lt hn)] at h
    cases h
  rw [List.getElem?_append_left hi]
  exact h

theorem modifyAt_getElem? {α : Type} (f : α → α) (n i : Nat) (l : List α) :
    (modifyAt f n l)[i]? = if i = n then (l[i]?).map f else l[i]? := by
  induction l generalizing n i with
  | nil => simp [modifyAt]
  | cons x xs ih =>
    cases n with
    | zero =>
      cases i with
      | zero => simp [modifyAt]
      | succ i' => simp [modifyAt]
    | succ n' =>
      cases i with
      | zero => simp [modifyAt]
      | succ i' => simpa [modifyAt] using ih n' i'

theorem docGrows_modifyTempl (d : Document) (ti : Nat) (f : template_t → template_t)
    (hf : ∀ t, TemplGrows t (f t)) :
    DocGrows d { d with templates := modifyAt f ti d.templates } := by
  refine ⟨?_, listGrows_refl _, listGrows_refl _, listGrows_refl _,
    listGrows_refl _, listGrows_refl _⟩
  intro i t ht
  show ∃ t', (modifyAt f ti d.templates)[i]? = some t' ∧ TemplGrows t t'
  rw [modifyAt_getElem?]
  by_cases hi : i = ti
  · rw [if_pos hi, ht]
    exact ⟨f t, rfl, hf t⟩
  · rw [if_neg hi, ht]
    exact ⟨t, rfl, templGrows_refl t⟩

/-- C8: every Builder/Document mutation other than `removeProcess` only
appends: each document container grows in place and each already stored
template only grows in place, so every previously stored element is
unchanged by any later add operation. -/
theorem applyOp_append_only (d : Document) (op : DocOp)
    (h : op.isRemove = false) :
    DocGrows d (d.applyOp op) := by
  cases op with
  | removeProcess k => simp [DocOp.isRemove] at h
  | addTemplate t =>
    refine ⟨?_, listGrows_refl _, listGrows_refl _, listGrows_refl _,
      listGrows_refl _, listGrows_refl _⟩
    intro i ti hti
    exact ⟨ti, getElem?_append_of_some _ _ _ _ hti, templGrows_refl ti⟩
  | addInstance i =>
    exact ⟨fun j t ht => ⟨t, ht, templGrows_refl t⟩, listGrows_concat _ _,
      listGrows_refl _, listGrows_refl _, listGrows_refl _, listGrows_refl _⟩
  | addLscInstance i =>
    exact ⟨fun j t ht => ⟨t, ht, templGrows_refl t⟩, listGrows_refl _,
      listGrows_concat _ _, listGrows_refl _, listGrows_refl _, listGrows_refl _⟩
  | addProcess i =>
    exact ⟨fun j t ht => ⟨t, ht, templGrows_refl t⟩, listGrows_refl _,
      listGrows_refl _, listGrows_concat _ _, listGrows_refl _, listGrows_refl _⟩
  | addQuery q =>
    exact ⟨fun j t ht => ⟨t, ht, templGrows_refl t⟩, listGrows_refl _,
      listGrows_refl _, listGrows_refl _, listGrows_concat _ _, listGrows_refl _⟩
  | addStringOp s =>
    exact ⟨fun j t ht => ⟨t, ht, templGrows_refl t⟩, listGrows_refl _,
      listGrows_refl _, listGrows_refl _, listGrows_refl _, listGrows_concat _ _⟩
  | addStringIfNewOp s =>
    exact ⟨fun j t ht => ⟨t, ht, templGrows_refl t⟩, listGrows_refl _,
      listGrows_refl _, listGrows_refl _, listGrows_refl _,
      add_string_if_new_grows d.strings s⟩
  | addLocation ti st =>
    exact docGrows_modifyTempl d ti _ (fun t =>
      ⟨listGrows_concat _ _, listGrows_refl _, listGrows_refl _, listGrows_refl _,
        listGrows_refl _, listGrows_refl _, listGrows_refl _⟩)
  | addBranchpoint ti b =>
    exact docGrows_modifyTempl d ti _ (fun t =>
      ⟨listGrows_refl _, listGrows_concat _ _, listGrows_refl _, listGrows_refl _,
        listGrows_refl _, listGrows_refl _, listGrows_refl _⟩)
  | addEdgeOp ti src dst c an =>
    exact docGrows_modifyTempl d ti _ (fun t =>
      ⟨listGrows_refl _, listGrows_refl _, listGrows_concat _ _, listGrows_refl _,
        listGrows_refl _, listGrows_refl _, listGrows_refl _⟩)
  | addInstanceLine ti il =>
    exact docGrows_modifyTempl d ti _ (fun t =>
      ⟨listGrows_refl _, listGrows_refl _, listGrows_refl _, listGrows_concat _ _,
        listGrows_refl _, listGrows_refl _, listGrows_refl _⟩)
  | addMessage ti m =>
    exact docGrows_modifyTempl d ti _ (fun t =>
      ⟨listGrows_refl _, listGrows_refl _, listGrows_refl _, listGrows_refl _,
        listGrows_concat _ _, listGrows_refl _, listGrows_refl _⟩)
  | addCondition ti c =>
    exact docGrows_modifyTempl d ti _ (fun t =>
      ⟨listGrows_refl _, listGrows_refl _, listGrows_refl _, listGrows_refl _,
        listGrows_refl _, listGrows_concat _ _, listGrows_refl _⟩)
  | addUpdate ti u =>
    exact docGrows_modifyTempl d ti _ (fun t =>
      ⟨listGrows_refl _, listGrows_refl _, listGrows_refl _, listGrows_refl _,
        listGrows_refl _, listGrows_refl _, listGrows_concat _ _⟩)

/-- C8 witness: the theorem applied to the fresh document and the
`add_string` operation. -/
theorem applyOp_append_only_witness :
    DocGrows Document.fresh (Document.fresh.applyOp (DocOp.addStringOp "x")) :=
  applyOp_append_only Document.fresh (DocOp.addStringOp "x") rfl

end UTAP
